import Mathlib

/-!
# Verification of the tiny-db query command (`src/tinydb_tool/commands/query_cmd.py`)

Shallow embedding of the query-string parser, the value coercer and the
predicate builder of `query_cmd.py`.  Python strings are modelled as
`List Char`; Python numbers (`int` and `float`) are modelled with exact
rational arithmetic (`ℚ`), IEEE-754 rounding and the special values
`inf`/`nan` are outside the model; Python's Unicode-aware `\w` and `\s`
character classes are modelled by their ASCII subsets (the spec's stated
field grammar `[A-Za-z0-9_]+` lies inside that subset, and every claim
quantifies within it).
-/

deriving instance DecidableEq for Except

namespace QueryCmd

/-- Python strings are modelled as lists of characters. -/
abbrev Str := List Char

/-- The character class `\w` of the pattern in `parse_query_string`
(ASCII subset: letters, digits, underscore). -/
def isWordChar (c : Char) : Bool := c.isAlphanum || c == '_'

/-- The character class `\s` (whitespace). -/
def isSpaceChar (c : Char) : Bool := c.isWhitespace

/-- Python `str.lstrip()` / the greedy `\s*`: drop leading whitespace. -/
def stripLeft (s : Str) : Str := s.dropWhile isSpaceChar

/-- Python `str.rstrip()`: drop trailing whitespace. -/
def stripRight (s : Str) : Str := s.rdropWhile isSpaceChar

/-- Python `str.strip()`. -/
def strip (s : Str) : Str := stripRight (stripLeft s)

/-- The values a TinyDB document field (or a parsed query value) can hold:
the JSON scalar types.  `int`, `float` and `bool` are separate constructors
because Python distinguishes them for `isinstance` checks. -/
inductive PyVal where
  | none
  | bool (b : Bool)
  | int (n : Int)
  | float (q : ℚ)
  | str (s : Str)
deriving DecidableEq, Repr

/-! ## Expression parser (`parse_query_string`, lines 9-47)

The pattern is `^(\w+)\s*(==|!=|>=|<=|>|<)\s*(.+)$`, applied with
`re.match` to the stripped input.  Because operator characters are neither
word characters nor whitespace, the greedy `(\w+)` and the first `\s*`
never backtrack; the engine DOES backtrack into the alternation: when a
two-character `>=`/`<=` leaves the tail `\s*(.+)$` unsatisfiable, the
one-character prefix `>`/`<` is retried and the `=` falls to the value
group (so `re.match` on `x >=` yields `('x', '>', '=')`).  `.` does not
match a newline, and since the input is stripped there is no trailing
newline for `$` to sit in front of, so the tail succeeds exactly when,
after the greedily skipped whitespace, the remainder is non-empty and
newline-free.  The matcher below realises this match procedure, candidate
list and all, directly. -/

/-- Greedy `(\w+)`: the longest word-character run and the rest. -/
def takeWord (s : Str) : Str × Str := (s.takeWhile isWordChar, s.dropWhile isWordChar)

/-- The six operator tokens of the grammar, in the alternation's order. -/
def queryOps : List Str :=
  [['=', '='], ['!', '='], ['>', '='], ['<', '='], ['>'], ['<']]

/-- The ordered alternation `(==|!=|>=|<=|>|<)` with the engine's
backtracking: at the operator position, each entry is one alternative the
engine will try, in order.  A two-character `>=`/`<=` is tried first; when
the rest of the pattern fails after it, the engine backtracks to the
one-character prefix `>`/`<`, which leaves the `=` to the value group
(`==` and `!=` have no one-character alternative in the alternation). -/
def opCandidates : Str → List (Str × Str)
  | c1 :: c2 :: r =>
      if c1 = '=' ∧ c2 = '=' then [(['=', '='], r)]
      else if c1 = '!' ∧ c2 = '=' then [(['!', '='], r)]
      else if c1 = '>' ∧ c2 = '=' then [(['>', '='], r), (['>'], c2 :: r)]
      else if c1 = '<' ∧ c2 = '=' then [(['<', '='], r), (['<'], c2 :: r)]
      else if c1 = '>' then [(['>'], c2 :: r)]
      else if c1 = '<' then [(['<'], c2 :: r)]
      else []
  | [c1] =>
      if c1 = '>' then [(['>'], [])]
      else if c1 = '<' then [(['<'], [])]
      else []
  | [] => []

/-- The pattern tail `\s*(.+)$` against the remainder `r`.  Inside a
stripped input a non-empty suffix never ends in whitespace, so after the
greedy `\s*` the tail matches exactly when what is left is non-empty and
newline-free (`.` does not match a newline and `$` has no trailing
newline to sit in front of); backtracking into `\s*` or `.+` cannot
rescue a failure because it only re-adds whitespace in front of, or keeps
the newline inside, the candidate value. -/
def matchTail (r : Str) : Option Str :=
  let v := stripLeft r
  if v ≠ [] ∧ ¬ v.contains '\n' then some v else none

/-- Try the alternation's candidates in engine order: the first whose
tail match succeeds gives the groups. -/
def tryCandidates (field : Str) : List (Str × Str) → Option (Str × Str × Str)
  | [] => none
  | c :: alts =>
      match matchTail c.2 with
      | Option.some v => some (field, c.1, v)
      | Option.none => tryCandidates field alts

/-- Match of `^(\w+)\s*(==|!=|>=|<=|>|<)\s*(.+)$` against the (stripped)
input: the three capture groups, or `none`.  `(\w+)` and the first `\s*`
never backtrack usefully (no operator starts with a word or whitespace
character), so the match is the first alternation candidate whose tail
succeeds. -/
def reMatch (s : Str) : Option (Str × Str × Str) :=
  let fr := takeWord s
  if fr.1 = [] then none
  else tryCandidates fr.1 (opCandidates (stripLeft fr.2))

/-- Model of `parse_value` (lines 50-67): strip, then remove one layer of matching
outer single or double quotes (Python slice `[1:-1]`, no escape
processing). -/
def parse_value (value_string : Str) : Str :=
  let v := strip value_string
  if (v.head? = some '"' ∧ v.getLast? = some '"') ∨
     (v.head? = some (Char.ofNat 39) ∧ v.getLast? = some (Char.ofNat 39)) then
    (v.drop 1).dropLast
  else v

/-- Model of `parse_query_string` (lines 9-47).  The argument is a `PyVal` so that
the `isinstance(string_to_query, str)` guard is part of the model; any
non-string (and the falsy empty string) yields `none`. -/
def parse_query_string (string_to_query : PyVal) : Option (Str × Str × Str) :=
  match string_to_query with
  | .str s =>
      if s = [] then none
      else
        let t := strip s
        if t = [] then none
        else
          match reMatch t with
          | Option.none => none
          | Option.some g =>
              let field_name := g.1
              let operator := g.2.1
              let value_string := strip g.2.2
              if field_name = [] ∨ operator = [] ∨ value_string = [] then none
              else some (field_name, operator, parse_value value_string)
  | _ => none

/-! ## Value coercer (`parse_numeric_value`, lines 70-105)

`parse_numeric_value` first tries Python's `float()` on the stripped
string and, when that fails, falls back to
`eval(value, {'math': math, '__builtins__': {}})`; any failure of the
fallback (or a non-numeric result) becomes
`ValueError("Cannot parse as numeric value: ...")`.

`float()` is modelled on finite decimal literals
(`[+-]? (D+ [. D*] | . D+) ([eE] [+-]? D+)?`); the special spellings
`inf`/`infinity`/`nan` and digit-group underscores are outside the
rational model. -/

def isDigitChar (c : Char) : Bool := c.isDigit

/-- Longest digit run and the rest. -/
def takeDigits (s : Str) : Str × Str := (s.takeWhile isDigitChar, s.dropWhile isDigitChar)

/-- Value of a digit string (most significant first). -/
def digitsVal (ds : Str) : Nat := ds.foldl (fun a c => a * 10 + (c.toNat - 48)) 0

/-- Unsigned decimal mantissa `D+ [. D*] | [D*] . D+` (at least one digit
overall), returning its exact rational value and the rest. -/
def parseMantissa (s : Str) : Option (ℚ × Str) :=
  let ip := takeDigits s
  match ip.2 with
  | '.' :: r2 =>
      let fp := takeDigits r2
      if ip.1 = [] ∧ fp.1 = [] then none
      else some ((digitsVal ip.1 : ℚ) + (digitsVal fp.1 : ℚ) / ((10 : ℚ) ^ fp.1.length), fp.2)
  | _ => if ip.1 = [] then none else some ((digitsVal ip.1 : ℚ), ip.2)

/-- Grammar `[+-]? D+` (used for exponents). -/
def parseSignedDigits (s : Str) : Option (Int × Str) :=
  match s with
  | '+' :: r =>
      let d := takeDigits r
      if d.1 = [] then none else some ((digitsVal d.1 : Int), d.2)
  | '-' :: r =>
      let d := takeDigits r
      if d.1 = [] then none else some (-(digitsVal d.1 : Int), d.2)
  | r =>
      let d := takeDigits r
      if d.1 = [] then none else some ((digitsVal d.1 : Int), d.2)

/-- Optional exponent suffix `[eE] [+-]? D+`; absence yields exponent 0,
a malformed suffix after `e`/`E` fails the whole literal. -/
def parseExpSuffix (s : Str) : Option (Int × Str) :=
  match s with
  | 'e' :: r => parseSignedDigits r
  | 'E' :: r => parseSignedDigits r
  | r => some (0, r)

/-- Python `float(str)` on the finite-decimal grammar (exact rational
semantics; the entire string must be consumed). -/
def pyFloatOfString (s : Str) : Option ℚ :=
  let t := strip s
  let sr : ℚ × Str :=
    match t with
    | '-' :: r => (-1, r)
    | '+' :: r => (1, r)
    | r => (1, r)
  match parseMantissa sr.2 with
  | Option.none => none
  | Option.some mr =>
      match parseExpSuffix mr.2 with
      | Option.none => none
      | Option.some er =>
          if er.2 = [] then some (sr.1 * mr.1 * (10 : ℚ) ^ er.1) else none

/-! ### The `eval` fallback

The source evaluates the string with Python's own `eval` under the
namespace `{'math': math, '__builtins__': {}}` (lines 92-97).  `eval`
compiles and evaluates a full Python expression: in particular it resolves
attribute access and calls on ANY object it can reach, not only on the
`math` module — an empty `__builtins__` only removes name lookups, not
attribute or call semantics.  The model below embeds the fragment of
CPython's expression grammar and evaluation semantics that the claims
exercise: numeric literals, the keyword literals `True`/`False`/`None`,
identifiers, attribute access, zero/one-argument calls, unary `+`/`-`,
binary `+ - * /` and parentheses.  Real `eval` accepts strictly more
(powers, comparisons, comprehensions, subscription, ...); every behaviour
the model exhibits is a behaviour of the source.

`math.pi` and `math.e` are the IEEE-754 doubles stored by the `math`
module, as exact rationals. -/

/-- The double closest to π, i.e. the value of `math.pi`. -/
def mathPi : ℚ := (884279719003555 : ℚ) / (2 : ℚ) ^ 48

/-- The double closest to e, i.e. the value of `math.e`. -/
def mathE : ℚ := (6121026514868073 : ℚ) / (2 : ℚ) ^ 51

/-- Arithmetic operators of the modelled expression fragment. -/
inductive AOp where
  | add | sub | mul | div
deriving DecidableEq, Repr

/-- Python expressions (the modelled fragment of the `eval` grammar). -/
inductive PyExpr where
  | num (q : ℚ)
  | boolLit (b : Bool)
  | noneLit
  | name (id : Str)
  | attr (e : PyExpr) (id : Str)
  | call0 (f : PyExpr)
  | call1 (f : PyExpr) (a : PyExpr)
  | neg (e : PyExpr)
  | binop (op : AOp) (a b : PyExpr)
deriving DecidableEq, Repr

/-- Run-time objects reachable in the modelled fragment.  `num` conflates
Python `int` and `float` (both satisfy the `isinstance(result, (int, float))`
check at line 98); `intClass` is the class object returned by `__class__`
on a number. -/
inductive PyObj where
  | num (q : ℚ)
  | boolv (b : Bool)
  | nonev
  | mathMod
  | intClass
deriving DecidableEq, Repr

/-- Attribute lookup: the `math` module exposes its constants, and every
Python number carries ambient attributes such as `real` and `__class__` —
the empty `__builtins__` does not remove them. -/
def pyGetattr : PyObj → Str → Except String PyObj
  | .mathMod, id =>
      if id = "pi".data then .ok (.num mathPi)
      else if id = "e".data then .ok (.num mathE)
      else .error "AttributeError"
  | .num q, id =>
      if id = "real".data then .ok (.num q)
      else if id = "__class__".data then .ok .intClass
      else .error "AttributeError"
  | _, _ => .error "AttributeError"

/-- Truncation toward zero, as Python `int(float)` rounds. -/
def ratTrunc (q : ℚ) : Int := if 0 ≤ q then ⌊q⌋ else ⌈q⌉

/-- Zero-argument call. -/
def pyCall0 : PyObj → Except String PyObj
  | .intClass => .ok (.num 0)
  | _ => .error "TypeError"

/-- One-argument call. -/
def pyCall1 : PyObj → PyObj → Except String PyObj
  | .intClass, .num q => .ok (.num (ratTrunc q : ℚ))
  | .intClass, .boolv b => .ok (.num (if b then 1 else 0))
  | _, _ => .error "TypeError"

/-- Numeric view used by arithmetic (Python treats `bool` as a number). -/
def pyToNum : PyObj → Option ℚ
  | .num q => some q
  | .boolv b => some (if b then 1 else 0)
  | _ => none

/-- Evaluation of a modelled expression under the namespace
`{'math': math, '__builtins__': {}}`: the only resolvable identifier is
`math` (everything else raises `NameError`), but attribute access and
calls are evaluated on whatever object the sub-expression produced. -/
def evalExpr : PyExpr → Except String PyObj
  | .num q => .ok (.num q)
  | .boolLit b => .ok (.boolv b)
  | .noneLit => .ok .nonev
  | .name id => if id = "math".data then .ok PyObj.mathMod else .error "NameError"
  | .attr e id => do pyGetattr (← evalExpr e) id
  | .call0 f => do pyCall0 (← evalExpr f)
  | .call1 f a => do pyCall1 (← evalExpr f) (← evalExpr a)
  | .neg e => do
      match pyToNum (← evalExpr e) with
      | Option.some q => .ok (.num (-q))
      | Option.none => .error "TypeError"
  | .binop op a b => do
      match pyToNum (← evalExpr a), pyToNum (← evalExpr b) with
      | Option.some x, Option.some y =>
          (match op with
           | .add => .ok (.num (x + y))
           | .sub => .ok (.num (x - y))
           | .mul => .ok (.num (x * y))
           | .div => if y = 0 then .error "ZeroDivisionError" else .ok (.num (x / y)))
      | _, _ => .error "TypeError"

/-! ### Recursive-descent parser for the expression fragment
(models the `compile` step inside `eval`; fueled for totality). -/

/-- Skip blanks between tokens. -/
def skipBlank (s : Str) : Str := s.dropWhile (fun c => c == ' ' || c == '\t')

def isIdStart (c : Char) : Bool := c.isAlpha || c == '_'

/-- One identifier token. -/
def takeIdent (s : Str) : Option (Str × Str) :=
  match s with
  | c :: r => if isIdStart c then some (c :: r.takeWhile isWordChar, r.dropWhile isWordChar) else none
  | [] => none

mutual

def parseAtom : Nat → Str → Option (PyExpr × Str)
  | 0, _ => Option.none
  | Nat.succ fuel, s =>
      let s' := skipBlank s
      match s' with
      | '(' :: r =>
          (match parseExprF fuel r with
           | Option.some er =>
               (match skipBlank er.2 with
                | ')' :: r2 => some (er.1, r2)
                | _ => Option.none)
           | Option.none => Option.none)
      | _ =>
          match takeIdent s' with
          | Option.some ir =>
              if ir.1 = "True".data then some (PyExpr.boolLit true, ir.2)
              else if ir.1 = "False".data then some (PyExpr.boolLit false, ir.2)
              else if ir.1 = "None".data then some (PyExpr.noneLit, ir.2)
              else some (PyExpr.name ir.1, ir.2)
          | Option.none =>
              match parseMantissa s' with
              | Option.some mr =>
                  (match parseExpSuffix mr.2 with
                   | Option.some er => some (PyExpr.num (mr.1 * (10 : ℚ) ^ er.1), er.2)
                   | Option.none => Option.none)
              | Option.none => Option.none

def parseTrailers : Nat → PyExpr → Str → Option (PyExpr × Str)
  | 0, _, _ => Option.none
  | Nat.succ fuel, e, s =>
      let s' := skipBlank s
      match s' with
      | '.' :: r =>
          (match takeIdent (skipBlank r) with
           | Option.some ir => parseTrailers fuel (PyExpr.attr e ir.1) ir.2
           | Option.none => Option.none)
      | '(' :: r =>
          (match skipBlank r with
           | ')' :: r2 => parseTrailers fuel (PyExpr.call0 e) r2
           | r1 =>
               match parseExprF fuel r1 with
               | Option.some ar =>
                   (match skipBlank ar.2 with
                    | ')' :: r2 => parseTrailers fuel (PyExpr.call1 e ar.1) r2
                    | _ => Option.none)
               | Option.none => Option.none)
      | _ => some (e, s')

def parseUnary : Nat → Str → Option (PyExpr × Str)
  | 0, _ => Option.none
  | Nat.succ fuel, s =>
      match skipBlank s with
      | '-' :: r =>
          (match parseUnary fuel r with
           | Option.some er => some (PyExpr.neg er.1, er.2)
           | Option.none => Option.none)
      | '+' :: r => parseUnary fuel r
      | s' =>
          match parseAtom fuel s' with
          | Option.some ar => parseTrailers fuel ar.1 ar.2
          | Option.none => Option.none

def parseTermLoop : Nat → PyExpr → Str → Option (PyExpr × Str)
  | 0, _, _ => Option.none
  | Nat.succ fuel, acc, s =>
      match skipBlank s with
      | '*' :: r =>
          (match parseUnary fuel r with
           | Option.some ur => parseTermLoop fuel (PyExpr.binop AOp.mul acc ur.1) ur.2
           | Option.none => Option.none)
      | '/' :: r =>
          (match parseUnary fuel r with
           | Option.some ur => parseTermLoop fuel (PyExpr.binop AOp.div acc ur.1) ur.2
           | Option.none => Option.none)
      | s' => some (acc, s')

def parseTerm : Nat → Str → Option (PyExpr × Str)
  | 0, _ => Option.none
  | Nat.succ fuel, s =>
      match parseUnary fuel s with
      | Option.some ur => parseTermLoop fuel ur.1 ur.2
      | Option.none => Option.none

def parseExprLoop : Nat → PyExpr → Str → Option (PyExpr × Str)
  | 0, _, _ => Option.none
  | Nat.succ fuel, acc, s =>
      match skipBlank s with
      | '+' :: r =>
          (match parseTerm fuel r with
           | Option.some tr => parseExprLoop fuel (PyExpr.binop AOp.add acc tr.1) tr.2
           | Option.none => Option.none)
      | '-' :: r =>
          (match parseTerm fuel r with
           | Option.some tr => parseExprLoop fuel (PyExpr.binop AOp.sub acc tr.1) tr.2
           | Option.none => Option.none)
      | s' => some (acc, s')

def parseExprF : Nat → Str → Option (PyExpr × Str)
  | 0, _ => Option.none
  | Nat.succ fuel, s =>
      match parseTerm fuel s with
      | Option.some tr => parseExprLoop fuel tr.1 tr.2
      | Option.none => Option.none

end

/-- Whole-string expression parse (the `compile` step of `eval`); the fuel
bounds recursion depth and is generous for the input's length. -/
def parsePyExpr (s : Str) : Option PyExpr :=
  match parseExprF (8 * s.length + 16) s with
  | Option.some er => if skipBlank er.2 = [] then some er.1 else none
  | Option.none => none

/-- The `eval` fallback of `parse_numeric_value` (lines 91-103): a parse
failure (`SyntaxError`), an evaluation failure, or a non-numeric result
each become `ValueError` through the bare `except`; a numeric result
(`bool` included, since `isinstance(True, int)` holds) is converted with
`float`. -/
def evalFallback (s : Str) : Except String ℚ :=
  match parsePyExpr s with
  | Option.none => .error "Cannot parse as numeric value"
  | Option.some e =>
      match evalExpr e with
      | .error _ => .error "Cannot parse as numeric value"
      | .ok (.num q) => .ok q
      | .ok (.boolv b) => .ok (if b then 1 else 0)
      | .ok _ => .error "Cannot parse as numeric value"

/-- Model of `parse_numeric_value` (lines 70-105).  `bool` hits the
`isinstance(value, (int, float))` branch because Python's `bool` is a
subclass of `int`; strings are stripped, tried as `float` literals, then
given to the `eval` fallback; any other type raises `ValueError`. -/
def parse_numeric_value (value : PyVal) : Except String ℚ :=
  match value with
  | .bool b => .ok (if b then 1 else 0)
  | .int n => .ok (n : ℚ)
  | .float q => .ok q
  | .str s =>
      let t := strip s
      match pyFloatOfString t with
      | Option.some q => .ok q
      | Option.none => evalFallback t
  | .none => .error "Cannot parse as numeric value"

/-- Model of `is_numeric_value` (lines 108-122): true iff `parse_numeric_value`
succeeds. -/
def is_numeric_value (value : PyVal) : Bool :=
  match parse_numeric_value value with
  | .ok _ => true
  | .error _ => false

/-! ## Predicate builder (`build_tinydb_query`, lines 125-166)

`Query()[field] == value` / `!= value` compare with Python `==` (value
equality: numeric kinds `bool`/`int`/`float` compare numerically with each
other, strings compare as text, values of different families are unequal).
`field.test(lambda)` wraps the ordering lambdas of lines 151-158. -/

/-- Numeric view of a document value for Python `==` (Python compares
`bool`, `int` and `float` numerically with each other). -/
def pyNumOfVal : PyVal → Option ℚ
  | .bool b => some (if b then 1 else 0)
  | .int n => some (n : ℚ)
  | .float q => some q
  | _ => none

/-- Python `==` on the modelled value domain. -/
def pyEq (a b : PyVal) : Bool :=
  match pyNumOfVal a, pyNumOfVal b with
  | Option.some x, Option.some y => x == y
  | _, _ =>
      match a, b with
      | .str s, .str t => s == t
      | .none, .none => true
      | _, _ => false

/-- The four ordering comparisons. -/
inductive CmpOp where
  | gt | ge | lt | le
deriving DecidableEq, Repr

/-- Comparison `x OP bound` for an ordering operator. -/
def cmpEval (op : CmpOp) (x bound : ℚ) : Bool :=
  match op with
  | .gt => bound < x
  | .ge => bound ≤ x
  | .lt => x < bound
  | .le => x ≤ bound

/-- A TinyDB query condition as built by `build_tinydb_query`:
`Q[field] == value`, `Q[field] != value`, or `Q[field].test(...)` holding
one of the four ordering lambdas together with the numeric bound computed
at build time. -/
inductive Pred where
  | eqPred (field : Str) (v : PyVal)
  | nePred (field : Str) (v : PyVal)
  | cmpPred (field : Str) (op : CmpOp) (bound : ℚ)
deriving DecidableEq, Repr

/-- The two `ValueError`s of `build_tinydb_query`:
`nonNumericComparand` is the one raised at line 149 (it wraps the message
of the coercion failure), `unsupportedOperator` the one at line 166. -/
inductive BuildError where
  | nonNumericComparand (msg : String)
  | unsupportedOperator
deriving DecidableEq, Repr

/-- The four ordering operator tokens, i.e. the tuple
`('>', '>=', '<', '<=')` at line 145. -/
def orderingOps : List Str := [['>'], ['>', '='], ['<'], ['<', '=']]

/-- Model of `build_tinydb_query` (lines 125-166): ordering operators coerce the
query-side value at build time and fail there when coercion fails;
equality operators embed the value as it is. -/
def build_tinydb_query (field_name : Str) (operator : Str) (value : PyVal) :
    Except BuildError Pred :=
  if operator ∈ orderingOps then
    match parse_numeric_value value with
    | .error e => .error (.nonNumericComparand e)
    | .ok q =>
        if operator = ['>'] then .ok (.cmpPred field_name .gt q)
        else if operator = ['>', '='] then .ok (.cmpPred field_name .ge q)
        else if operator = ['<'] then .ok (.cmpPred field_name .lt q)
        else .ok (.cmpPred field_name .le q)
  else if operator = ['=', '='] then .ok (.eqPred field_name value)
  else if operator = ['!', '='] then .ok (.nePred field_name value)
  else .error .unsupportedOperator

/-- Evaluate a built condition on a document's field value (a document
where the field is missing never matches in TinyDB and never reaches the
lambda; evaluation is modelled at the field-value level).  `Except`
captures a Python exception escaping the evaluation.  The ordering
conditions run `lambda x: is_numeric_value(x) and parse_numeric_value(x)
OP bound` — by the short-circuit `and`, a non-numeric `x` yields `False`
without `parse_numeric_value` being called. -/
def evalPred : Pred → PyVal → Except String Bool
  | .eqPred _ v, x => .ok (pyEq x v)
  | .nePred _ v, x => .ok (!pyEq x v)
  | .cmpPred _ op bound, x =>
      if is_numeric_value x then
        match parse_numeric_value x with
        | .ok q => .ok (cmpEval op q bound)
        | .error e => .error e
      else .ok false

/-! ## String lemmas -/

theorem space_char_cases {c : Char} (h : isSpaceChar c = true) :
    c = ' ' ∨ c = '\t' ∨ c = '\r' ∨ c = '\n' := by
  unfold isSpaceChar Char.isWhitespace at h
  simp only [Bool.or_eq_true, decide_eq_true_eq] at h
  tauto

theorem word_not_space {c : Char} (h : isWordChar c = true) : isSpaceChar c = false := by
  cases hs : isSpaceChar c with
  | false => rfl
  | true =>
      rcases space_char_cases hs with rfl | rfl | rfl | rfl <;>
        exact absurd h (by decide)

theorem stripLeft_cons_not_space {c : Char} {t : Str} (h : isSpaceChar c = false) :
    stripLeft (c :: t) = c :: t := by
  simp [stripLeft, List.dropWhile_cons, h]

theorem stripLeft_cons_space {c : Char} {t : Str} (h : isSpaceChar c = true) :
    stripLeft (c :: t) = stripLeft t := by
  simp [stripLeft, List.dropWhile_cons, h]

theorem stripLeft_eq_nil_iff {s : Str} :
    stripLeft s = [] ↔ ∀ c ∈ s, isSpaceChar c = true := by
  simp [stripLeft, List.dropWhile_eq_nil_iff]

theorem stripRight_eq_nil_iff {s : Str} :
    stripRight s = [] ↔ ∀ c ∈ s, isSpaceChar c = true := by
  simp [stripRight, List.rdropWhile_eq_nil_iff]

theorem stripLeft_append_allspace {a b : Str} (h : ∀ c ∈ a, isSpaceChar c = true) :
    stripLeft (a ++ b) = stripLeft b := by
  induction a with
  | nil => rfl
  | cons c t ih =>
      rw [List.cons_append, stripLeft_cons_space (h c (by simp))]
      exact ih (fun x hx => h x (by simp [hx]))

theorem stripLeft_append_of_ne_nil {a b : Str} (h : stripLeft a ≠ []) :
    stripLeft (a ++ b) = stripLeft a ++ b := by
  unfold stripLeft at *
  rw [List.dropWhile_append, if_neg]
  simpa [List.isEmpty_iff] using h

theorem stripRight_append_of_ne_nil {a b : Str} (h : stripRight b ≠ []) :
    stripRight (a ++ b) = a ++ stripRight b := by
  unfold stripRight List.rdropWhile at *
  rw [List.reverse_append, List.dropWhile_append, if_neg]
  · rw [List.reverse_append, List.reverse_reverse]
  · simp only [List.isEmpty_iff]
    intro hnil
    exact h (by rw [hnil, List.reverse_nil])

theorem stripRight_append_allspace {a ws : Str} (h : ∀ c ∈ ws, isSpaceChar c = true) :
    stripRight (a ++ ws) = stripRight a := by
  unfold stripRight List.rdropWhile
  rw [List.reverse_append,
      show ∀ x y : Str, List.dropWhile isSpaceChar (x ++ y) = stripLeft (x ++ y) from fun _ _ => rfl,
      stripLeft_append_allspace (by simpa using h)]
  rfl

theorem stripRight_cons_allspace {c : Char} {t : Str} (hc : isSpaceChar c = false)
    (ht : stripRight t = []) : stripRight (c :: t) = [c] := by
  unfold stripRight List.rdropWhile at *
  rw [List.reverse_cons, List.dropWhile_append, if_pos]
  · simp [List.dropWhile_cons, hc]
  · simp only [List.isEmpty_iff]
    have := congrArg List.reverse ht
    simpa using this

theorem stripLeft_stripRight_comm (s : Str) :
    stripLeft (stripRight s) = stripRight (stripLeft s) := by
  induction s with
  | nil => rfl
  | cons c t ih =>
      cases hc : isSpaceChar c with
      | true =>
          rw [stripLeft_cons_space hc, ← ih]
          by_cases h : stripRight t = []
          · have hall : ∀ x ∈ c :: t, isSpaceChar x = true := by
              intro x hx
              rcases List.mem_cons.mp hx with rfl | hx
              · exact hc
              · exact (stripRight_eq_nil_iff.mp h) x hx
            rw [stripRight_eq_nil_iff.mpr hall, h]
          · rw [show (c :: t : Str) = [c] ++ t from rfl, stripRight_append_of_ne_nil h,
                List.singleton_append, stripLeft_cons_space hc]
      | false =>
          rw [stripLeft_cons_not_space hc]
          by_cases h : stripRight t = []
          · rw [stripRight_cons_allspace hc h, stripLeft_cons_not_space hc]
          · rw [show (c :: t : Str) = [c] ++ t from rfl, stripRight_append_of_ne_nil h,
                List.singleton_append, stripLeft_cons_not_space hc,
                ← List.singleton_append, ← stripRight_append_of_ne_nil h]

theorem stripLeft_idem (s : Str) : stripLeft (stripLeft s) = stripLeft s :=
  List.dropWhile_idempotent _ _

theorem stripRight_idem (s : Str) : stripRight (stripRight s) = stripRight s :=
  List.rdropWhile_idempotent _ _

theorem strip_idem (s : Str) : strip (strip s) = strip s := by
  unfold strip
  rw [stripLeft_stripRight_comm (stripLeft s), stripLeft_idem, stripRight_idem]

theorem stripLeft_stripRight_eq_strip (s : Str) : stripLeft (stripRight s) = strip s :=
  stripLeft_stripRight_comm s

theorem mem_of_mem_stripLeft {c : Char} {s : Str} (h : c ∈ stripLeft s) : c ∈ s :=
  (List.dropWhile_suffix _).subset h

theorem mem_of_mem_stripRight {c : Char} {s : Str} (h : c ∈ stripRight s) : c ∈ s :=
  (List.rdropWhile_prefix _ _).subset h

theorem mem_of_mem_strip {c : Char} {s : Str} (h : c ∈ strip s) : c ∈ s :=
  mem_of_mem_stripLeft (mem_of_mem_stripRight (by simpa [strip] using h) : c ∈ stripLeft s)

theorem strip_ne_nil_of_stripRight_nil {value : Str} (hv : strip value ≠ [])
    (hr : stripRight value = []) : False := by
  apply hv
  unfold strip
  rw [stripLeft_eq_nil_iff.mpr (stripRight_eq_nil_iff.mp hr)]
  rfl

/-! ## Parser structure lemmas -/

theorem takeWhile_word_append {a : Str} {c : Char} {r : Str}
    (ha : ∀ x ∈ a, isWordChar x = true) (hc : isWordChar c = false) :
    (a ++ c :: r).takeWhile isWordChar = a := by
  induction a with
  | nil => simp [List.takeWhile_cons, hc]
  | cons d t ih =>
      rw [List.cons_append, List.takeWhile_cons, if_pos (ha d (by simp))]
      rw [ih (fun x hx => ha x (by simp [hx]))]

theorem dropWhile_word_append {a : Str} {c : Char} {r : Str}
    (ha : ∀ x ∈ a, isWordChar x = true) (hc : isWordChar c = false) :
    (a ++ c :: r).dropWhile isWordChar = c :: r := by
  induction a with
  | nil => simp [List.dropWhile_cons, hc]
  | cons d t ih =>
      rw [List.cons_append, List.dropWhile_cons, if_pos (ha d (by simp))]
      exact ih (fun x hx => ha x (by simp [hx]))

theorem takeWord_append {a : Str} {c : Char} {r : Str}
    (ha : ∀ x ∈ a, isWordChar x = true) (hc : isWordChar c = false) :
    takeWord (a ++ c :: r) = (a, c :: r) := by
  unfold takeWord
  rw [takeWhile_word_append ha hc, dropWhile_word_append ha hc]

theorem matchTail_nil : matchTail [] = none := rfl

theorem matchTail_some {R : Str} (hR2 : stripLeft R ≠ [])
    (hR3 : (stripLeft R).contains '\n' = false) :
    matchTail R = some (stripLeft R) := by
  unfold matchTail
  rw [if_pos ⟨hR2, by simpa using hR3⟩]

theorem matchTail_space_cons {R : Str} (hR2 : stripLeft R ≠ [])
    (hR3 : (stripLeft R).contains '\n' = false) :
    matchTail (' ' :: R) = some (stripLeft R) := by
  unfold matchTail
  rw [stripLeft_cons_space (by decide)]
  rw [if_pos ⟨hR2, by simpa using hR3⟩]

/-- With a space after the operator token, the first alternation candidate
already satisfies the tail, so no backtracking happens and the full token
is selected. -/
theorem tryCandidates_op_space {field : Str} {op : Str} (h : op ∈ queryOps) {R : Str}
    (hR2 : stripLeft R ≠ []) (hR3 : (stripLeft R).contains '\n' = false) :
    tryCandidates field (opCandidates (op ++ ' ' :: R)) = some (field, op, stripLeft R) := by
  have hmt := matchTail_space_cons hR2 hR3
  simp only [queryOps, List.mem_cons, List.not_mem_nil, or_false] at h
  rcases h with rfl | rfl | rfl | rfl | rfl | rfl <;>
    simp [opCandidates, tryCandidates, hmt]

theorem opCandidates_nil_of_no_opchar {u : Str}
    (h : ∀ c ∈ u, c ≠ '=' ∧ c ≠ '<' ∧ c ≠ '>') : opCandidates u = [] := by
  match u with
  | [] => rfl
  | [c1] =>
      have h1 := h c1 (by simp)
      simp only [opCandidates]
      rw [if_neg h1.2.2, if_neg h1.2.1]
  | c1 :: c2 :: r =>
      have h1 := h c1 (by simp)
      have h2 := h c2 (by simp)
      simp only [opCandidates]
      rw [if_neg (fun hx => h1.1 hx.1), if_neg (fun hx => h2.1 hx.2),
          if_neg (fun hx => h1.2.2 hx.1), if_neg (fun hx => h1.2.1 hx.1),
          if_neg h1.2.2, if_neg h1.2.1]

/-- Every operator token is non-empty, and none of its characters is
whitespace or a word character. -/
theorem queryOps_chars {op : Str} (h : op ∈ queryOps) :
    op ≠ [] ∧ (∀ c ∈ op, isSpaceChar c = false ∧ isWordChar c = false) := by
  simp only [queryOps, List.mem_cons, List.not_mem_nil, or_false] at h
  rcases h with rfl | rfl | rfl | rfl | rfl | rfl <;> exact ⟨by decide, by decide⟩

theorem stripLeft_op {op : Str} (h : op ∈ queryOps) : stripLeft op = op := by
  rcases op with _ | ⟨c, t⟩
  · rfl
  · exact stripLeft_cons_not_space ((queryOps_chars h).2 c (by simp)).1

theorem stripRight_op {op : Str} (h : op ∈ queryOps) : stripRight op = op := by
  apply List.rdropWhile_eq_self_iff.mpr
  intro hl
  rw [((queryOps_chars h).2 _ (List.getLast_mem hl)).1]
  simp

/-- The regex match on a well-formed stripped input
`field ++ " " ++ op ++ " " ++ R`: the greedy `\s*` absorbs the leading
whitespace of `R`, and the match succeeds when what is left is non-empty
and newline-free. -/
theorem reMatch_shape {field op R : Str}
    (hf : field ≠ []) (hfw : ∀ c ∈ field, isWordChar c = true)
    (hop : op ∈ queryOps)
    (hR2 : stripLeft R ≠ []) (hR3 : (stripLeft R).contains '\n' = false) :
    reMatch (field ++ ' ' :: (op ++ ' ' :: R)) = some (field, op, stripLeft R) := by
  unfold reMatch
  rw [show takeWord (field ++ ' ' :: (op ++ ' ' :: R)) = (field, ' ' :: (op ++ ' ' :: R)) from
    takeWord_append hfw (by decide)]
  rw [if_neg hf]
  have hops : stripLeft (op ++ ' ' :: R) = op ++ ' ' :: R := by
    rcases op with _ | ⟨c, t⟩
    · exact absurd rfl (queryOps_chars hop).1
    · exact stripLeft_cons_not_space ((queryOps_chars hop).2 c (by simp)).1
  rw [show stripLeft (' ' :: (op ++ ' ' :: R)) = op ++ ' ' :: R from by
    rw [stripLeft_cons_space (by decide)]; exact hops]
  exact tryCandidates_op_space hop hR2 hR3

/-- Behaviour of `parse_query_string` on a well-formed single-space-separated query
string whose trimmed value segment is non-empty, newline-free and not
quote-wrapped: the exact triple comes back with the value trimmed. -/
theorem parse_query_string_shape {field op value : Str}
    (hf : field ≠ []) (hfw : ∀ c ∈ field, isWordChar c = true)
    (hop : op ∈ queryOps)
    (hv : strip value ≠ [])
    (hn : (strip value).contains '\n' = false)
    (hq : ¬ (((strip value).head? = some '"' ∧ (strip value).getLast? = some '"') ∨
             ((strip value).head? = some (Char.ofNat 39) ∧
              (strip value).getLast? = some (Char.ofNat 39)))) :
    parse_query_string (.str (field ++ ' ' :: (op ++ ' ' :: value)))
      = some (field, op, strip value) := by
  rcases field with _ | ⟨c0, f'⟩
  · exact absurd rfl hf
  have hc0 : isWordChar c0 = true := hfw c0 (by simp)
  have hRne : stripRight value ≠ [] := fun hr => strip_ne_nil_of_stripRight_nil hv hr
  have hSL : stripLeft (stripRight value) = strip value := stripLeft_stripRight_eq_strip value
  -- the strip of the whole input keeps everything but the value's trailing whitespace
  have hstrip : strip ((c0 :: f') ++ ' ' :: (op ++ ' ' :: value))
      = (c0 :: f') ++ ' ' :: (op ++ ' ' :: stripRight value) := by
    unfold strip
    rw [List.cons_append, stripLeft_cons_not_space (word_not_space hc0), ← List.cons_append]
    rw [show (c0 :: f') ++ ' ' :: (op ++ ' ' :: value)
          = ((c0 :: f') ++ ' ' :: op ++ [' ']) ++ value by simp]
    rw [stripRight_append_of_ne_nil hRne]
    simp
  have hmatch : reMatch ((c0 :: f') ++ ' ' :: (op ++ ' ' :: stripRight value))
      = some (c0 :: f', op, strip value) := by
    rw [reMatch_shape (by simp) hfw hop (by rw [hSL]; exact hv) (by rw [hSL]; exact hn), hSL]
  have hvs : strip (strip value) = strip value := strip_idem value
  simp only [parse_query_string]
  rw [if_neg (by simp : ¬ ((c0 :: f') ++ ' ' :: (op ++ ' ' :: value) = []))]
  simp only [hstrip]
  rw [if_neg (by simp : ¬ ((c0 :: f') ++ ' ' :: (op ++ ' ' :: stripRight value) = []))]
  simp only [hmatch, hvs]
  rw [if_neg (by
    push_neg
    exact ⟨by simp, (queryOps_chars hop).1, hv⟩)]
  unfold parse_value
  simp only [hvs]
  rw [if_neg hq]

/-- A string that strips to nothing never matches. -/
theorem parse_query_string_none_of_blank {s : Str} (h : strip s = []) :
    parse_query_string (.str s) = none := by
  simp only [parse_query_string, h]
  by_cases hs : s = [] <;> simp [hs]

/-- A string without `=`, `<` or `>` has no operator and never matches. -/
theorem parse_query_string_none_of_no_opchar {s : Str}
    (h : ∀ c ∈ s, c ≠ '=' ∧ c ≠ '<' ∧ c ≠ '>') :
    parse_query_string (.str s) = none := by
  by_cases hs : s = []
  · subst hs; rfl
  simp only [parse_query_string]
  rw [if_neg hs]
  by_cases ht : strip s = []
  · simp [ht]
  have hre : reMatch (strip s) = none := by
    unfold reMatch
    by_cases hw : (takeWord (strip s)).1 = []
    · rw [if_pos hw]
    · rw [if_neg hw]
      have hmo : opCandidates (stripLeft (takeWord (strip s)).2) = [] := by
        apply opCandidates_nil_of_no_opchar
        intro c hc
        exact h c (mem_of_mem_strip
          ((List.dropWhile_suffix isWordChar).subset (mem_of_mem_stripLeft hc)))
      rw [hmo]
      rfl
  simp [ht, hre]

/-- A stripped input whose first character is not a word character has an
empty field group and never matches. -/
theorem parse_query_string_none_of_nonword_head {s : Str} {c : Char} {t0 : Str}
    (hh : strip s = c :: t0) (hw : isWordChar c = false) :
    parse_query_string (.str s) = none := by
  have hs : s ≠ [] := by
    intro h
    rw [h] at hh
    exact absurd hh (by simp [strip, stripLeft, stripRight])
  simp only [parse_query_string]
  rw [if_neg hs]
  simp only [hh]
  rw [if_neg (by simp)]
  have hre : reMatch (c :: t0) = none := by
    unfold reMatch
    rw [if_pos (by simp [takeWord, List.takeWhile_cons, hw])]
  simp [hre]

/-- The strip of `field OP ws` with all-whitespace `ws` ends right after
the operator token. -/
theorem strip_field_op_blank {field op ws : Str}
    (hf : field ≠ []) (hfw : ∀ c ∈ field, isWordChar c = true)
    (hop : op ∈ queryOps) (hws : ∀ c ∈ ws, isSpaceChar c = true) :
    strip (field ++ ' ' :: (op ++ ws)) = field ++ ' ' :: op := by
  rcases field with _ | ⟨c0, f'⟩
  · exact absurd rfl hf
  have hc0 := hfw c0 (by simp)
  have hopne := (queryOps_chars hop).1
  unfold strip
  rw [List.cons_append, stripLeft_cons_not_space (word_not_space hc0), ← List.cons_append]
  rw [show (c0 :: f') ++ ' ' :: (op ++ ws) = (((c0 :: f') ++ [' ']) ++ op) ++ ws by simp]
  rw [stripRight_append_allspace hws]
  rw [stripRight_append_of_ne_nil (by rw [stripRight_op hop]; exact hopne)]
  rw [stripRight_op hop]
  simp

/-- Input `field OP` followed by nothing but whitespace, for the four
operators with no backtracking alternative (`==`, `!=`, `>`, `<`): the
`(.+)$` group is empty and there is no match. -/
theorem parse_query_string_none_of_empty_value {field op ws : Str}
    (hf : field ≠ []) (hfw : ∀ c ∈ field, isWordChar c = true)
    (hop4 : op ∈ ([['=', '='], ['!', '='], ['>'], ['<']] : List Str))
    (hws : ∀ c ∈ ws, isSpaceChar c = true) :
    parse_query_string (.str (field ++ ' ' :: (op ++ ws))) = none := by
  have hop : op ∈ queryOps := by
    simp only [List.mem_cons, List.not_mem_nil, or_false] at hop4
    rcases hop4 with rfl | rfl | rfl | rfl <;> decide
  have hstrip := strip_field_op_blank hf hfw hop hws
  have hre : reMatch (field ++ ' ' :: op) = none := by
    unfold reMatch
    rw [takeWord_append hfw (by decide)]
    rw [if_neg hf]
    rw [show stripLeft (' ' :: op) = op from by
      rw [stripLeft_cons_space (by decide)]; exact stripLeft_op hop]
    simp only [List.mem_cons, List.not_mem_nil, or_false] at hop4
    rcases hop4 with rfl | rfl | rfl | rfl <;> rfl
  simp only [parse_query_string]
  rw [if_neg (by simp)]
  simp only [hstrip]
  rw [if_neg (by simp)]
  simp [hre]

/-- Input `field OP` followed by nothing but whitespace, for `>=` and
`<=`: the two-character token leaves the `(.+)$` group empty, so the
engine backtracks to the one-character prefix and the leftover `=` becomes
the value — the parse SUCCEEDS with operator `>` resp. `<` and value `=`. -/
theorem parse_query_string_backtracks_on_empty_value {field ws : Str} {c : Char}
    (hf : field ≠ []) (hfw : ∀ x ∈ field, isWordChar x = true)
    (hc : c = '>' ∨ c = '<') (hws : ∀ x ∈ ws, isSpaceChar x = true) :
    parse_query_string (.str (field ++ ' ' :: ((c :: '=' :: []) ++ ws)))
      = some (field, [c], ['=']) := by
  have hop : (c :: '=' :: []) ∈ queryOps := by
    rcases hc with rfl | rfl <;> decide
  have hstrip := strip_field_op_blank hf hfw hop hws
  have hre : reMatch (field ++ ' ' :: (c :: '=' :: []))
      = some (field, [c], ['=']) := by
    unfold reMatch
    rw [takeWord_append hfw (by decide)]
    rw [if_neg hf]
    rw [show stripLeft (' ' :: (c :: '=' :: [])) = c :: '=' :: [] from by
      rw [stripLeft_cons_space (by decide)]; exact stripLeft_op hop]
    rcases hc with rfl | rfl <;> rfl
  simp only [parse_query_string]
  rw [if_neg (by simp)]
  simp only [hstrip]
  rw [if_neg (by simp)]
  simp only [hre]
  rw [if_neg (by push_neg; exact ⟨hf, by simp, by decide⟩)]
  rfl

/-! ## The claims -/

/-- C3: equality predicates are type-sensitive with no numeric coercion:
for every field name, `build(field, "==", "5")` evaluated on a document
whose field holds the text `"5"` returns true and on a document whose
field holds the number 5 returns false; symmetrically for `!=`. -/
theorem equality_type_sensitive (field : Str) :
    build_tinydb_query field "==".data (.str "5".data)
      = .ok (.eqPred field (.str "5".data)) ∧
    evalPred (.eqPred field (.str "5".data)) (.str "5".data) = .ok true ∧
    evalPred (.eqPred field (.str "5".data)) (.int 5) = .ok false ∧
    build_tinydb_query field "!=".data (.str "5".data)
      = .ok (.nePred field (.str "5".data)) ∧
    evalPred (.nePred field (.str "5".data)) (.str "5".data) = .ok false ∧
    evalPred (.nePred field (.str "5".data)) (.int 5) = .ok true :=
  ⟨rfl, rfl, rfl, rfl, rfl, rfl⟩

/-- C6: quote-stripping equivalence: a double-quoted `"Bob"` and a bare
`Bob` parse to the same raw value `Bob`, and the interior of a quoted
value is taken literally (a backslash sequence such as `\n` stays two
characters; no escape processing). -/
theorem quote_strip_equivalence :
    parse_query_string (.str "name == \"Bob\"".data)
      = some ("name".data, "==".data, "Bob".data) ∧
    parse_query_string (.str "name == Bob".data)
      = some ("name".data, "==".data, "Bob".data) ∧
    parse_value "\"a\\nb\"".data = "a\\nb".data :=
  ⟨rfl, rfl, rfl⟩

/-- C7 counterexample: at the input `x >=` the operator position starts
the two-character operator `>=`, yet parse returns the one-character
prefix `>` with value `=` — the engine backtracks into the alternation
when `(.+)$` is left empty, so the claim's universal fails. -/
theorem longest_match_cex :
    parse_query_string (.str "x >=".data) = some ("x".data, ">".data, "=".data) ∧
    (parse_query_string (.str "x >=".data)).map (fun g => g.2.1) ≠ some ">=".data :=
  ⟨rfl, by decide⟩

/-- C7 (amended): operator tokenization is longest-match whenever a
non-empty, newline-free value follows the two-character operator: for all
four two-character operators the full token is selected, never its
one-character prefix — in particular `age >= 21` parses with operator
`>=` and value `21`, never with `>` and `= 21`; only when nothing but
whitespace follows `>=`/`<=` does the engine backtrack to `>`/`<` with
the leftover `=` as the value (`parse("x >=") = ("x", ">", "=")`). -/
theorem longest_match_two_char_operators_amended
    (field rest : Str)
    (hf : field ≠ []) (hfw : ∀ c ∈ field, isWordChar c = true)
    (hr : stripLeft rest ≠ []) (hrn : (stripLeft rest).contains '\n' = false) :
    reMatch (field ++ '=' :: '=' :: rest) = some (field, "==".data, stripLeft rest) ∧
    reMatch (field ++ '!' :: '=' :: rest) = some (field, "!=".data, stripLeft rest) ∧
    reMatch (field ++ '>' :: '=' :: rest) = some (field, ">=".data, stripLeft rest) ∧
    reMatch (field ++ '<' :: '=' :: rest) = some (field, "<=".data, stripLeft rest) ∧
    parse_query_string (.str "age >= 21".data)
      = some ("age".data, ">=".data, "21".data) ∧
    parse_query_string (.str "age >= 21".data)
      ≠ some ("age".data, ">".data, "= 21".data) ∧
    parse_query_string (.str "x >=".data) = some ("x".data, ">".data, "=".data) := by
  have hmt := matchTail_some hr hrn
  refine ⟨?_, ?_, ?_, ?_, rfl, by decide, rfl⟩ <;>
  · unfold reMatch
    rw [takeWord_append hfw (by decide), if_neg hf, stripLeft_cons_not_space (by decide)]
    simp [opCandidates, tryCandidates, hmt]

/-- Witness for the amended C7 at `age>= 21` (all four hypotheses
discharged; the `>=` conjunct instantiated). -/
theorem longest_match_amended_witness :
    reMatch ("age>= 21".data) = some ("age".data, ">=".data, "21".data) :=
  (longest_match_two_char_operators_amended "age".data " 21".data
    (by decide) (by decide) (by decide) (by decide)).2.2.1

/-- C9: a raw value consisting of a single quote character passes the
pre-strip non-emptiness check and is then stripped as both the opening
and the closing quote, so the parsed value is the empty string. -/
theorem lone_quote_strips_to_empty :
    parse_query_string (.str "x == \"".data) = some ("x".data, "==".data, ([] : Str)) ∧
    parse_query_string (.str ("x == ".data ++ [Char.ofNat 39]))
      = some ("x".data, "==".data, ([] : Str)) :=
  ⟨rfl, rfl⟩

/-- C10: booleans count as numeric: `parse_numeric_value(True) = 1.0`,
`parse_numeric_value(False) = 0.0`, `is_numeric_value` holds for every
boolean, and an ordering predicate can match a boolean field value
(a `< 2` predicate matches a field holding `True`). -/
theorem bool_counts_as_numeric (b : Bool) :
    parse_numeric_value (.bool true) = .ok 1 ∧
    parse_numeric_value (.bool false) = .ok 0 ∧
    is_numeric_value (.bool b) = true ∧
    build_tinydb_query "flag".data "<".data (.str "2".data)
      = .ok (.cmpPred "flag".data .lt 2) ∧
    evalPred (.cmpPred "flag".data .lt 2) (.bool true) = .ok true := by
  refine ⟨rfl, rfl, ?_, by with_unfolding_all rfl, by with_unfolding_all rfl⟩
  cases b <;> rfl

/-- C2 (evaluation of the failing input): the `eval` fallback is not
restricted to the math vocabulary — `(5).real` resolves an attribute on a
plain integer and coerces successfully to 5.0, and `(5).__class__(7)`
additionally performs a call on an object outside the provided namespace
and coerces to 7.0, where the claim requires both to fail with
`NotNumeric`. -/
theorem eval_fallback_escapes_math_vocabulary :
    parse_numeric_value (.str "(5).real".data) = .ok 5 ∧
    parse_numeric_value (.str "(5).__class__(7)".data) = .ok 7 :=
  ⟨by with_unfolding_all rfl, by with_unfolding_all rfl⟩

/-- C8: `coerceNumeric` succeeds trivially on already-numeric values,
parses decimal float text directly, and falls back to arithmetic
evaluation: `"3.14"` gives 3.14, `"2+3"` gives 5.0, `"math.pi"` gives a
value within 1e-5 of 3.14159, and `"abc"` fails. -/
theorem coerce_numeric_examples (n : Int) (q : ℚ) :
    parse_numeric_value (.str "3.14".data) = .ok (157 / 50) ∧
    parse_numeric_value (.str "2+3".data) = .ok 5 ∧
    parse_numeric_value (.int n) = .ok (n : ℚ) ∧
    parse_numeric_value (.float q) = .ok q ∧
    (∃ p, parse_numeric_value (.str "math.pi".data) = .ok p ∧
      |p - 314159 / 100000| < 1 / 100000) ∧
    parse_numeric_value (.str "abc".data) = .error "Cannot parse as numeric value" :=
  ⟨by with_unfolding_all rfl, by with_unfolding_all rfl, rfl, rfl,
    ⟨mathPi, by with_unfolding_all rfl, by with_unfolding_all decide⟩,
    by with_unfolding_all rfl⟩

/-- Truth of `is_numeric_value` gives a successful coercion. -/
theorem parse_numeric_of_is_numeric {x : PyVal} (h : is_numeric_value x = true) :
    ∃ q, parse_numeric_value x = .ok q := by
  unfold is_numeric_value at h
  cases hp : parse_numeric_value x with
  | ok q => exact ⟨q, rfl⟩
  | error e => rw [hp] at h; simp at h

/-- C4: for every ordering operator and every query-side value that does
not coerce to numeric, `build_tinydb_query` fails immediately at build
time with the `NonNumericComparand` error — no predicate is produced, so
no document is ever evaluated. -/
theorem ordering_nonnumeric_comparand_fails_at_build
    (field op : Str) (v : PyVal) (hop : op ∈ orderingOps)
    (hv : is_numeric_value v = false) :
    ∃ msg, build_tinydb_query field op v = .error (.nonNumericComparand msg) := by
  unfold build_tinydb_query
  rw [if_pos hop]
  unfold is_numeric_value at hv
  cases h : parse_numeric_value v with
  | error e => exact ⟨e, rfl⟩
  | ok q => rw [h] at hv; simp at hv

/-- Witness for C4: building a predicate for `age > abc` fails at build
time with `NonNumericComparand`. -/
theorem ordering_nonnumeric_comparand_witness :
    ∃ msg, build_tinydb_query "age".data ">".data (.str "abc".data)
      = .error (.nonNumericComparand msg) :=
  ordering_nonnumeric_comparand_fails_at_build "age".data ">".data (.str "abc".data)
    (by decide) (by with_unfolding_all rfl)

/-- C1: every predicate built from an ordering operator evaluates to a
defined boolean on every document field value — in particular `ok false`
(never an exception) whenever the value is not numeric-coercible by the
same coercion rule — and it matches only numeric-coercible values. -/
theorem ordering_predicate_total_and_numeric_only
    (field op : Str) (v : PyVal) (p : Pred)
    (hop : op ∈ orderingOps)
    (hb : build_tinydb_query field op v = .ok p)
    (x : PyVal) :
    (is_numeric_value x = false → evalPred p x = .ok false) ∧
    (∃ b, evalPred p x = .ok b) ∧
    (evalPred p x = .ok true → is_numeric_value x = true) := by
  obtain ⟨cop, bound, rfl⟩ : ∃ cop bound, p = Pred.cmpPred field cop bound := by
    unfold build_tinydb_query at hb
    rw [if_pos hop] at hb
    cases hp : parse_numeric_value v with
    | error e => rw [hp] at hb; exact absurd hb (by simp)
    | ok q =>
        rw [hp] at hb
        split_ifs at hb <;>
          (injection hb with hb; exact ⟨_, _, hb.symm⟩)
  refine ⟨?_, ?_, ?_⟩
  · intro hx
    simp [evalPred, hx]
  · by_cases hx : is_numeric_value x = true
    · obtain ⟨q, hq⟩ := parse_numeric_of_is_numeric hx
      exact ⟨cmpEval cop q bound, by simp [evalPred, hx, hq]⟩
    · exact ⟨false, by simp [evalPred, hx]⟩
  · intro ht
    by_contra hx
    have hfalse : evalPred (.cmpPred field cop bound) x = .ok false := by
      simp [evalPred, hx]
    rw [hfalse] at ht
    simp at ht

/-- Witness for C1: the `>` predicate built from `age > 30` evaluates to
false (not an error) on a document whose field holds the text `"N/A"`. -/
theorem ordering_predicate_total_witness :
    evalPred (.cmpPred "age".data .gt 30) (.str "N/A".data) = .ok false :=
  (ordering_predicate_total_and_numeric_only "age".data ">".data (.str "30".data)
      (.cmpPred "age".data .gt 30) (by decide) (by with_unfolding_all rfl)
      (.str "N/A".data)).1 (by with_unfolding_all rfl)

/-- C5 counterexample: the claim fails as stated in three ways — on a
quote-wrapped value the parser additionally removes the outer quotes; a
value segment containing a newline (not in the claim's malformed list)
yields `None` because `.` in the pattern does not match a newline; and an
empty value after `<=` (which the claim calls malformed, requiring
`None`) in fact SUCCEEDS via regex backtracking, as `("y", "<", "=")`. -/
theorem parse_exact_triple_cex :
    parse_query_string (.str "x == \"5\"".data)
      = some ("x".data, "==".data, "5".data) ∧
    parse_query_string (.str "x == \"5\"".data)
      ≠ some ("x".data, "==".data, "\"5\"".data) ∧
    parse_query_string (.str "x == a\nb".data) = none ∧
    parse_query_string (.str "y <=".data) = some ("y".data, "<".data, "=".data) :=
  ⟨rfl, by decide, rfl, rfl⟩

/-- C5 (amended): for every well-formed `field OP value` whose trimmed
value segment is non-empty, newline-free and not wrapped in matching
outer quotes, `parse` returns exactly `(field, OP, trimmedValue)` with the
value segment trimmed of leading/trailing whitespace; and it returns
`None` (never raising) for non-string input, blank input, a string
without any operator, an empty field position, and an empty value
segment after `==`, `!=`, `>` or `<` — while an empty value after `>=`
or `<=` backtracks to the one-character prefix with `=` as the value. -/
theorem parse_exact_triple_amended
    (field op value : Str)
    (hf : field ≠ []) (hfw : ∀ c ∈ field, isWordChar c = true)
    (hop : op ∈ queryOps)
    (hv : strip value ≠ [])
    (hn : (strip value).contains '\n' = false)
    (hq : ¬ (((strip value).head? = some '"' ∧ (strip value).getLast? = some '"') ∨
             ((strip value).head? = some (Char.ofNat 39) ∧
              (strip value).getLast? = some (Char.ofNat 39)))) :
    parse_query_string (.str (field ++ ' ' :: (op ++ ' ' :: value)))
      = some (field, op, strip value) ∧
    (∀ x : PyVal, (∀ s, x ≠ PyVal.str s) → parse_query_string x = none) ∧
    (∀ s : Str, strip s = [] → parse_query_string (.str s) = none) ∧
    (∀ s : Str, (∀ c ∈ s, c ≠ '=' ∧ c ≠ '<' ∧ c ≠ '>') →
      parse_query_string (.str s) = none) ∧
    (∀ (s : Str) (c : Char) (t : Str), strip s = c :: t → isWordChar c = false →
      parse_query_string (.str s) = none) ∧
    (∀ ws : Str, (∀ c ∈ ws, isSpaceChar c = true) →
      ((op = "==".data ∨ op = "!=".data ∨ op = ">".data ∨ op = "<".data) →
        parse_query_string (.str (field ++ ' ' :: (op ++ ws))) = none) ∧
      (op = ">=".data →
        parse_query_string (.str (field ++ ' ' :: (op ++ ws)))
          = some (field, ">".data, "=".data)) ∧
      (op = "<=".data →
        parse_query_string (.str (field ++ ' ' :: (op ++ ws)))
          = some (field, "<".data, "=".data))) := by
  refine ⟨parse_query_string_shape hf hfw hop hv hn hq, ?_, ?_, ?_, ?_, ?_⟩
  · intro x hx
    cases x with
    | str s => exact absurd rfl (hx s)
    | none => rfl
    | bool b => rfl
    | int n => rfl
    | float q => rfl
  · exact fun s hs => parse_query_string_none_of_blank hs
  · exact fun s hs => parse_query_string_none_of_no_opchar hs
  · exact fun s c t h1 h2 => parse_query_string_none_of_nonword_head h1 h2
  · intro ws hws
    refine ⟨?_, ?_, ?_⟩
    · intro h4
      refine parse_query_string_none_of_empty_value hf hfw ?_ hws
      rcases h4 with rfl | rfl | rfl | rfl <;> decide
    · intro h2
      subst h2
      exact parse_query_string_backtracks_on_empty_value hf hfw (Or.inl rfl) hws
    · intro h2
      subst h2
      exact parse_query_string_backtracks_on_empty_value hf hfw (Or.inr rfl) hws

/-- Witness for the amended C5 at `age >= 21`. -/
theorem parse_exact_triple_amended_witness :
    parse_query_string (.str "age >= 21".data)
      = some ("age".data, ">=".data, "21".data) :=
  (parse_exact_triple_amended "age".data ">=".data "21".data
    (by decide) (by decide) (by decide) (by decide) (by decide) (by decide)).1

end QueryCmd
